import Mathlib

set_option maxHeartbeats 1000000

/-!
Shallow embedding of the hot potato game contract (`src/hotpotato/lib.rs`).

Account identifiers are 32-byte values, modelled as lists of byte values;
the environment's caller address is a 20-byte value, likewise a list.
Block numbers and the deadline window are `u32` values in the source,
modelled as `Nat` values below `2 ^ 32`; the source's `u32` addition
`last_passed_block + deadline_blocks` is modelled with an explicit
reduction mod `2 ^ 32`, since it wraps on overflow in the release build
(a build with overflow checks would trap there instead — under neither
profile is the mathematical sum what gets compared).  Each contract
message is a pure function from the
storage struct (plus the ambient caller address and block number) to a
result; a failed assertion is modelled as a typed error paired with the
storage value at the moment the assertion fires, so that "no mutation on
failure" is a provable property of the translation rather than a
convention.
-/

/-- Failures of the contract messages.  The first four constructors mirror
the `HotPotatoError` enum of the source; `NotGameStarter` stands for the
distinct assertion failure with message "Only starter can end" raised by
`end_game`. -/
inductive HotPotatoError where
  | GameNotActive
  | GameAlreadyActive
  | DeadlinePassed
  | NotCurrentHolder
  | NotGameStarter
deriving Repr, DecidableEq

/-- A 32-byte `AccountId`, as a list of byte values. -/
abbrev AccountId := List Nat

/-- Contract storage struct `Hotpotato`.  `last_passed_block` and
`deadline_blocks` hold `u32` values (see `WFState`); arithmetic on them is
performed mod `2 ^ 32` in the message definitions below. -/
structure Hotpotato where
  current_holder : Option AccountId
  last_passed_block : Nat
  deadline_blocks : Nat
  active : Bool
  game_starter : Option AccountId
deriving Repr, DecidableEq

/-- Constructor `new(deadline_blocks)`. -/
def Hotpotato.new (deadline_blocks : Nat) : Hotpotato :=
  { current_holder := none
    last_passed_block := 0
    deadline_blocks := deadline_blocks
    active := false
    game_starter := none }

/-- `caller_to_account_id`: the caller's 20-byte address is copied into the
first 20 bytes of a zero-initialised 32-byte account id, so bytes 20..31 of
the result are zero.  (`copy_from_slice` requires the caller address to
have exactly 20 bytes.) -/
def caller_to_account_id (caller : List Nat) : AccountId :=
  caller ++ List.replicate 12 0

/-- Message `start_game(toAcct)`.  `caller` is the ambient 20-byte caller
address and `now` the ambient block number. -/
def start_game (s : Hotpotato) (caller : List Nat) (now : Nat) (toAcct : AccountId) :
    Option HotPotatoError × Hotpotato :=
  if s.active then (some .GameAlreadyActive, s)
  else
    (none,
      { s with
        current_holder := some toAcct
        last_passed_block := now
        active := true
        game_starter := some (caller_to_account_id caller) })

/-- Wrap-around of a `u32` addition result: the source's `u32` `+` keeps
only the low 32 bits of the mathematical sum on overflow. -/
def u32 (n : Nat) : Nat := n % 2 ^ 32

/-- Message `pass_potato(toAcct)`. -/
def pass_potato (s : Hotpotato) (caller : List Nat) (now : Nat) (toAcct : AccountId) :
    Option HotPotatoError × Hotpotato :=
  if !s.active then (some .GameNotActive, s)
  else if s.current_holder ≠ some (caller_to_account_id caller) then
    (some .NotCurrentHolder, s)
  else if ¬ now ≤ u32 (s.last_passed_block + s.deadline_blocks) then
    (some .DeadlinePassed, s)
  else
    (none, { s with current_holder := some toAcct, last_passed_block := now })

/-- Helper `reset_game`. -/
def reset_game (s : Hotpotato) : Hotpotato :=
  { s with current_holder := none, active := false, game_starter := none }

/-- Outcome of `check_deadline`: a boolean result together with the
resulting storage, or — when `current_holder.unwrap()` is reached with
`current_holder == None` — the trap of the unwrap, carrying the storage at
that point. -/
inductive CheckOutcome where
  | ok (expired : Bool) (state : Hotpotato)
  | trap (state : Hotpotato)
deriving Repr, DecidableEq

/-- `true` when the outcome is a normal return (no unwrap trap). -/
def CheckOutcome.isOk : CheckOutcome → Bool
  | .ok _ _ => true
  | .trap _ => false

/-- Message `check_deadline()`. -/
def check_deadline (s : Hotpotato) (now : Nat) : CheckOutcome :=
  if !s.active then .ok false s
  else if now > u32 (s.last_passed_block + s.deadline_blocks) then
    match s.current_holder with
    | none => .trap s
    | some _ => .ok true (reset_game s)
  else .ok false s

/-- Message `end_game()`. -/
def end_game (s : Hotpotato) (caller : List Nat) :
    Option HotPotatoError × Hotpotato :=
  if !s.active then (some .GameNotActive, s)
  else if s.game_starter ≠ some (caller_to_account_id caller) then
    (some .NotGameStarter, s)
  else (none, reset_game s)

/-- Query `get_holder()`. -/
def get_holder (s : Hotpotato) : Option AccountId := s.current_holder

/-- Query `is_active()`. -/
def is_active (s : Hotpotato) : Bool := s.active

/-- Query `get_deadline_blocks()`. -/
def get_deadline_blocks (s : Hotpotato) : Nat := s.deadline_blocks

/-- Query `get_last_passed_block()`. -/
def get_last_passed_block (s : Hotpotato) : Nat := s.last_passed_block

/-- Query `get_game_starter()`. -/
def get_game_starter (s : Hotpotato) : Option AccountId := s.game_starter

/-- Query `get_remaining_blocks()`; `Nat` subtraction is the saturating
subtraction of the source, while the `u32` addition wraps. -/
def get_remaining_blocks (s : Hotpotato) (now : Nat) : Nat :=
  if !s.active then 0
  else u32 (s.last_passed_block + s.deadline_blocks) - now

/-- One invocation of a state-changing message, with its ambient caller
address and block number. -/
inductive Op where
  | start (caller : List Nat) (now : Nat) (toAcct : AccountId)
  | pass (caller : List Nat) (now : Nat) (toAcct : AccountId)
  | check (now : Nat)
  | finish (caller : List Nat)
deriving Repr

/-- The storage after an invocation: on a failed assertion or a trap the
transaction reverts, leaving the storage at its pre-call value (which is
exactly the value the failure carries). -/
def applyOp (s : Hotpotato) : Op → Hotpotato
  | .start caller now toAcct => (start_game s caller now toAcct).2
  | .pass caller now toAcct => (pass_potato s caller now toAcct).2
  | .check now =>
      match check_deadline s now with
      | .ok _ s2 => s2
      | .trap s2 => s2
  | .finish caller => (end_game s caller).2

/-- Run a sequence of invocations from a starting storage value. -/
def runOps (s : Hotpotato) (ops : List Op) : Hotpotato :=
  ops.foldl applyOp s

/-- A storage value reachable from some construction by some sequence of
invocations. -/
def Reachable (s : Hotpotato) : Prop :=
  ∃ d ops, s = runOps (Hotpotato.new d) ops

/-- `u32` well-formedness of the storage: the two block-count fields hold
`u32` values. -/
def WFState (s : Hotpotato) : Prop :=
  s.last_passed_block < 2 ^ 32 ∧ s.deadline_blocks < 2 ^ 32

/-- An invocation is well-formed when its ambient block number is a `u32`
value, as `env().block_number()` guarantees. -/
def Op.wfOp : Op → Prop
  | .start _ now _ => now < 2 ^ 32
  | .pass _ now _ => now < 2 ^ 32
  | .check _ => True
  | .finish _ => True

lemma wf_new (d : Nat) (hd : d < 2 ^ 32) : WFState (Hotpotato.new d) := by
  exact ⟨by simp [Hotpotato.new], by simpa [Hotpotato.new] using hd⟩

lemma wf_applyOp (s : Hotpotato) (op : Op) (hs : WFState s) (hop : op.wfOp) :
    WFState (applyOp s op) := by
  obtain ⟨hs1, hs2⟩ := hs
  cases op with
  | start caller now toAcct =>
      simp only [Op.wfOp] at hop
      by_cases hact : s.active
      · simp [applyOp, start_game, hact, WFState]
        exact ⟨hs1, hs2⟩
      · simp [applyOp, start_game, hact, WFState]
        exact ⟨hop, hs2⟩
  | pass caller now toAcct =>
      simp only [Op.wfOp] at hop
      by_cases hact : s.active
      · by_cases hhold : s.current_holder = some (caller_to_account_id caller)
        · by_cases hle : now ≤ u32 (s.last_passed_block + s.deadline_blocks)
          · simp [applyOp, pass_potato, hact, hhold, hle, WFState]
            exact ⟨hop, hs2⟩
          · simp [applyOp, pass_potato, hact, hhold, hle]
            exact ⟨hs1, hs2⟩
        · simp [applyOp, pass_potato, hact, hhold]
          exact ⟨hs1, hs2⟩
      · simp [applyOp, pass_potato, hact]
        exact ⟨hs1, hs2⟩
  | check now =>
      by_cases hact : s.active
      · by_cases hexp : u32 (s.last_passed_block + s.deadline_blocks) < now
        · rcases hcur : s.current_holder with _ | hh
          · simp [applyOp, check_deadline, hact, hexp, hcur]
            exact ⟨hs1, hs2⟩
          · simp [applyOp, check_deadline, hact, hexp, hcur, reset_game, WFState]
            exact ⟨hs1, hs2⟩
        · simp [applyOp, check_deadline, hact, hexp]
          exact ⟨hs1, hs2⟩
      · simp [applyOp, check_deadline, hact]
        exact ⟨hs1, hs2⟩
  | finish caller =>
      by_cases hact : s.active
      · by_cases hst : s.game_starter = some (caller_to_account_id caller)
        · simp [applyOp, end_game, hact, hst, reset_game, WFState]
          exact ⟨hs1, hs2⟩
        · simp [applyOp, end_game, hact, hst]
          exact ⟨hs1, hs2⟩
      · simp [applyOp, end_game, hact]
        exact ⟨hs1, hs2⟩

/-- The state invariant: `active` is false exactly when there is no holder,
and exactly when there is no starter. -/
def GameInv (s : Hotpotato) : Prop :=
  (s.active = false ↔ s.current_holder = none) ∧
  (s.active = false ↔ s.game_starter = none)

lemma inv_new (d : Nat) : GameInv (Hotpotato.new d) := by
  simp [GameInv, Hotpotato.new]

lemma inv_applyOp (s : Hotpotato) (op : Op) (h : GameInv s) : GameInv (applyOp s op) := by
  obtain ⟨h1, h2⟩ := h
  cases op with
  | start caller now toAcct =>
      by_cases hact : s.active
      · simp [applyOp, start_game, hact]
        exact ⟨h1, h2⟩
      · simp [applyOp, start_game, hact, GameInv]
  | pass caller now toAcct =>
      by_cases hact : s.active
      · by_cases hhold : s.current_holder = some (caller_to_account_id caller)
        · by_cases hle : now ≤ u32 (s.last_passed_block + s.deadline_blocks)
          · simp [applyOp, pass_potato, hact, hhold, hle, GameInv]
            simpa [hact] using h2
          · simp [applyOp, pass_potato, hact, hhold, hle]
            exact ⟨h1, h2⟩
        · simp [applyOp, pass_potato, hact, hhold]
          exact ⟨h1, h2⟩
      · simp [applyOp, pass_potato, hact]
        exact ⟨h1, h2⟩
  | check now =>
      by_cases hact : s.active
      · by_cases hexp : u32 (s.last_passed_block + s.deadline_blocks) < now
        · rcases hcur : s.current_holder with _ | hh
          · simp [applyOp, check_deadline, hact, hexp, hcur]
            exact ⟨h1, h2⟩
          · simp [applyOp, check_deadline, hact, hexp, hcur, reset_game, GameInv]
        · simp [applyOp, check_deadline, hact, hexp]
          exact ⟨h1, h2⟩
      · simp [applyOp, check_deadline, hact]
        exact ⟨h1, h2⟩
  | finish caller =>
      by_cases hact : s.active
      · by_cases hst : s.game_starter = some (caller_to_account_id caller)
        · simp [applyOp, end_game, hact, hst, reset_game, GameInv]
        · simp [applyOp, end_game, hact, hst]
          exact ⟨h1, h2⟩
      · simp [applyOp, end_game, hact]
        exact ⟨h1, h2⟩

lemma inv_runOps (s : Hotpotato) (h : GameInv s) (ops : List Op) :
    GameInv (runOps s ops) := by
  induction ops generalizing s with
  | nil => exact h
  | cons op ops ih =>
      simpa [runOps] using ih (applyOp s op) (inv_applyOp s op h)

lemma reachable_inv (s : Hotpotato) (h : Reachable s) : GameInv s := by
  obtain ⟨d, ops, rfl⟩ := h
  exact inv_runOps _ (inv_new d) ops

/-- A fixed 20-byte caller address used by concrete instantiations. -/
def callerW : List Nat := List.replicate 20 1

/-- A second, distinct 20-byte caller address. -/
def callerW2 : List Nat := List.replicate 20 3

/-- The account id of `callerW`. -/
def acctW : AccountId := caller_to_account_id callerW

/-- A recipient account id. -/
def toW : AccountId := List.replicate 32 2

/-- A concrete active storage value whose holder and starter are `callerW`'s
account id. -/
def sActiveW : Hotpotato :=
  { current_holder := some acctW
    last_passed_block := 0
    deadline_blocks := 10
    active := true
    game_starter := some acctW }

/-- A concrete reachable active storage value: construction with window 10
followed by `start_game` at block 0. -/
def sReachW : Hotpotato := runOps (Hotpotato.new 10) [Op.start callerW 0 toW]

/-- A concrete reachable active storage value whose `u32` deadline sum
overflows: construction with window 10, then `start_game` at block
`2 ^ 32 - 5` handing the potato to `callerW`'s own account id, so
`last_passed_block + deadline_blocks = 2 ^ 32 + 5` while the wrapped `u32`
sum is `5`. -/
def sOverW : Hotpotato :=
  runOps (Hotpotato.new 10) [Op.start callerW (2 ^ 32 - 5) acctW]

/-- Counterexample to Claim C1 as stated: at the reachable state `sOverW`
(`last_passed_block = 2 ^ 32 - 5`, `deadline_blocks = 10`, holder =
caller's account id) the block `2 ^ 32 - 4` satisfies
`now ≤ last_passed_block + deadline_blocks` as unbounded integers, yet
`pass_potato` fails with `DeadlinePassed`, because the `u32` sum wraps to
`5`. -/
theorem c1_counterexample :
    sOverW.active = true ∧
    sOverW.current_holder = some (caller_to_account_id callerW) ∧
    2 ^ 32 - 4 ≤ sOverW.last_passed_block + sOverW.deadline_blocks ∧
    (pass_potato sOverW callerW (2 ^ 32 - 4) toW).1 =
      some HotPotatoError.DeadlinePassed := by
  refine ⟨by decide, by decide, by decide, by decide⟩

/-- Claim C1 (amended: additionally requiring the `u32` sum
`last_passed_block + deadline_blocks` not to overflow): for an active game
whose holder is the caller's account id, `pass_potato` at block `now`
succeeds iff `now ≤ last_passed_block + deadline_blocks` (the boundary
block itself is still valid); for every
`now ≥ last_passed_block + deadline_blocks + 1` it fails with
`DeadlinePassed`; and on success it sets the holder to the recipient, sets
`last_passed_block := now`, and leaves the starter unchanged — for every
recipient, the caller included. -/
theorem c1_pass_deadline_boundary (s : Hotpotato) (caller : List Nat) (now : Nat)
    (toAcct : AccountId)
    (hact : s.active = true)
    (hhold : s.current_holder = some (caller_to_account_id caller))
    (hnov : s.last_passed_block + s.deadline_blocks < 2 ^ 32) :
    ((pass_potato s caller now toAcct).1 = none ↔
      now ≤ s.last_passed_block + s.deadline_blocks) ∧
    (s.last_passed_block + s.deadline_blocks + 1 ≤ now →
      (pass_potato s caller now toAcct).1 = some HotPotatoError.DeadlinePassed) ∧
    (now ≤ s.last_passed_block + s.deadline_blocks →
      (pass_potato s caller now toAcct).2.current_holder = some toAcct ∧
      (pass_potato s caller now toAcct).2.last_passed_block = now ∧
      (pass_potato s caller now toAcct).2.game_starter = s.game_starter) := by
  have hmod : u32 (s.last_passed_block + s.deadline_blocks) =
      s.last_passed_block + s.deadline_blocks := Nat.mod_eq_of_lt hnov
  by_cases hle : now ≤ s.last_passed_block + s.deadline_blocks
  · simp [pass_potato, hact, hhold, hmod, hle]
    omega
  · simp [pass_potato, hact, hhold, hmod, hle]

/-- Witness for C1 at a concrete state: pass at the boundary block 10
succeeds; pass at block 11 fails with `DeadlinePassed`. -/
theorem c1_pass_deadline_boundary_witness :
    (pass_potato sActiveW callerW 10 toW).1 = none ∧
    (pass_potato sActiveW callerW 11 toW).1 = some HotPotatoError.DeadlinePassed := by
  constructor
  · exact (c1_pass_deadline_boundary sActiveW callerW 10 toW rfl rfl
      (by decide)).1.mpr (by decide)
  · exact (c1_pass_deadline_boundary sActiveW callerW 11 toW rfl rfl
      (by decide)).2.1 (by decide)

/-- Claim C2: every failing invocation leaves the storage exactly as it was:
a failed `start_game`, `pass_potato` or `end_game` carries the pre-call
storage, and the unwrap trap inside `check_deadline` can only carry the
pre-call storage. -/
theorem c2_failure_no_mutation (s : Hotpotato) (caller : List Nat) (now : Nat)
    (toAcct : AccountId) :
    ((start_game s caller now toAcct).1.isSome →
      (start_game s caller now toAcct).2 = s) ∧
    ((pass_potato s caller now toAcct).1.isSome →
      (pass_potato s caller now toAcct).2 = s) ∧
    ((end_game s caller).1.isSome → (end_game s caller).2 = s) ∧
    (∀ s2, check_deadline s now = CheckOutcome.trap s2 → s2 = s) := by
  refine ⟨?_, ?_, ?_, ?_⟩
  · by_cases hact : s.active <;> simp [start_game, hact]
  · by_cases hact : s.active
    · by_cases hhold : s.current_holder = some (caller_to_account_id caller)
      · by_cases hle : now ≤ u32 (s.last_passed_block + s.deadline_blocks) <;>
          simp [pass_potato, hact, hhold, hle]
      · simp [pass_potato, hact, hhold]
    · simp [pass_potato, hact]
  · by_cases hact : s.active
    · by_cases hst : s.game_starter = some (caller_to_account_id caller) <;>
        simp [end_game, hact, hst]
    · simp [end_game, hact]
  · intro s2 heq
    by_cases hact : s.active
    · by_cases hexp : now > u32 (s.last_passed_block + s.deadline_blocks)
      · rcases hcur : s.current_holder with _ | hh <;>
          simp [check_deadline, hact, hexp, hcur] at heq
        exact heq.symm
      · simp [check_deadline, hact, hexp] at heq
    · simp [check_deadline, hact] at heq

/-- Witness for C2: a failed `start_game` on an active state and a failed
`pass_potato` on an inactive state both return the pre-call storage. -/
theorem c2_failure_no_mutation_witness :
    (start_game sActiveW callerW 0 toW).2 = sActiveW ∧
    (pass_potato (Hotpotato.new 10) callerW 0 toW).2 = Hotpotato.new 10 := by
  constructor
  · exact (c2_failure_no_mutation sActiveW callerW 0 toW).1 (by decide)
  · exact (c2_failure_no_mutation (Hotpotato.new 10) callerW 0 toW).2.1 (by decide)

/-- Claim C3: in every reachable storage value, `active = false`,
`current_holder = none` and `game_starter = none` are pairwise equivalent;
in particular an active game always has a holder. -/
theorem c3_reachable_invariant (s : Hotpotato) (h : Reachable s) :
    (s.active = false ↔ s.current_holder = none) ∧
    (s.current_holder = none ↔ s.game_starter = none) ∧
    (s.active = true → s.current_holder ≠ none) := by
  obtain ⟨h1, h2⟩ := reachable_inv s h
  refine ⟨h1, h1.symm.trans h2, ?_⟩
  intro hact hnone
  have hfalse := h1.mpr hnone
  rw [hact] at hfalse
  cases hfalse

/-- Witness for C3 at the freshly constructed state. -/
theorem c3_reachable_invariant_witness :
    ((Hotpotato.new 10).active = false ↔ (Hotpotato.new 10).current_holder = none) :=
  (c3_reachable_invariant (Hotpotato.new 10) ⟨10, [], rfl⟩).1

/-- Counterexample to Claim C4 as stated: at the reachable active state
`sOverW` the block `2 ^ 32 - 4` does not strictly exceed the mathematical
`last_passed_block + deadline_blocks`, so the claim requires a `false`
return with no mutation, yet `check_deadline` resets the game and returns
`true`, because the `u32` sum wraps to `5`. -/
theorem c4_counterexample :
    sOverW.active = true ∧
    2 ^ 32 - 4 ≤ sOverW.last_passed_block + sOverW.deadline_blocks ∧
    check_deadline sOverW (2 ^ 32 - 4) = CheckOutcome.ok true (reset_game sOverW) ∧
    reset_game sOverW ≠ sOverW := by
  refine ⟨by decide, by decide, by decide, by decide⟩

/-- Claim C4 (amended: additionally requiring the `u32` sum
`last_passed_block + deadline_blocks` not to overflow): `check_deadline`
takes no caller and can raise no authorization error; on a reachable state
it returns `false` with no mutation when the game is inactive, resets to
the inactive state (no holder, no starter, not active) and returns `true`
when the block number strictly exceeds
`last_passed_block + deadline_blocks`, and returns `false` with no
mutation otherwise; after the reset every further call returns `false`
with no further change. -/
theorem c4_check_deadline_spec (s : Hotpotato) (now now2 : Nat) (h : Reachable s)
    (hnov : s.last_passed_block + s.deadline_blocks < 2 ^ 32) :
    (s.active = false → check_deadline s now = CheckOutcome.ok false s) ∧
    (s.active = true → s.last_passed_block + s.deadline_blocks < now →
      check_deadline s now = CheckOutcome.ok true (reset_game s) ∧
      (reset_game s).current_holder = none ∧
      (reset_game s).game_starter = none ∧
      (reset_game s).active = false ∧
      check_deadline (reset_game s) now2 = CheckOutcome.ok false (reset_game s)) ∧
    (s.active = true → now ≤ s.last_passed_block + s.deadline_blocks →
      check_deadline s now = CheckOutcome.ok false s) := by
  obtain ⟨h1, h2⟩ := reachable_inv s h
  have hmod : u32 (s.last_passed_block + s.deadline_blocks) =
      s.last_passed_block + s.deadline_blocks := Nat.mod_eq_of_lt hnov
  refine ⟨?_, ?_, ?_⟩
  · intro hact
    simp [check_deadline, hact]
  · intro hact hexp
    rcases hcur : s.current_holder with _ | hh
    · have hfalse := h1.mpr hcur
      rw [hact] at hfalse
      cases hfalse
    · exact ⟨by simp [check_deadline, hact, hmod, hexp, hcur], by simp [reset_game],
        by simp [reset_game], by simp [reset_game],
        by simp [check_deadline, reset_game]⟩
  · intro hact hle
    simp [check_deadline, hact, hmod, Nat.not_lt.mpr hle]

/-- Witness for C4: the reachable state started at block 0 with window 10,
checked at block 11, resets and reports `true`. -/
theorem c4_check_deadline_spec_witness :
    check_deadline sReachW 11 = CheckOutcome.ok true (reset_game sReachW) :=
  ((c4_check_deadline_spec sReachW 11 0 ⟨10, [Op.start callerW 0 toW], rfl⟩
    (by decide)).2.1 (by decide) (by decide)).1

/-- Claim C5: `start_game` on an inactive state succeeds and sets the
holder to the recipient, `last_passed_block` to the current block,
`active` to `true` and the starter to the caller's account id (the caller,
not the recipient); on an active state it fails with `GameAlreadyActive`
and leaves the holder and `last_passed_block` unchanged. -/
theorem c5_start_game_spec (s : Hotpotato) (caller : List Nat) (now : Nat)
    (toAcct : AccountId) :
    (s.active = false →
      start_game s caller now toAcct =
        (none,
          { s with
            current_holder := some toAcct
            last_passed_block := now
            active := true
            game_starter := some (caller_to_account_id caller) })) ∧
    (s.active = true →
      (start_game s caller now toAcct).1 = some HotPotatoError.GameAlreadyActive ∧
      (start_game s caller now toAcct).2.current_holder = s.current_holder ∧
      (start_game s caller now toAcct).2.last_passed_block = s.last_passed_block) := by
  constructor
  · intro hact
    simp [start_game, hact]
  · intro hact
    simp [start_game, hact]

/-- Witness for C5: starting on a fresh state stores the recipient as
holder and the caller's account id as starter. -/
theorem c5_start_game_spec_witness :
    start_game (Hotpotato.new 10) callerW 0 toW =
      (none,
        { Hotpotato.new 10 with
          current_holder := some toW
          last_passed_block := 0
          active := true
          game_starter := some (caller_to_account_id callerW) }) :=
  (c5_start_game_spec (Hotpotato.new 10) callerW 0 toW).1 rfl

/-- Claim C6: `end_game` fails with `GameNotActive` on an inactive state;
fails with the authorization error `NotGameStarter` (assertion "Only
starter can end") leaving the state unchanged when the caller is not the
starter; and when the caller is the starter it resets to the inactive
state unconditionally — no deadline condition appears anywhere in it. -/
theorem c6_end_game_spec (s : Hotpotato) (caller : List Nat) :
    (s.active = false → end_game s caller = (some HotPotatoError.GameNotActive, s)) ∧
    (s.active = true → s.game_starter ≠ some (caller_to_account_id caller) →
      end_game s caller = (some HotPotatoError.NotGameStarter, s)) ∧
    (s.active = true → s.game_starter = some (caller_to_account_id caller) →
      end_game s caller = (none, reset_game s) ∧
      (reset_game s).active = false ∧
      (reset_game s).current_holder = none ∧
      (reset_game s).game_starter = none) := by
  refine ⟨?_, ?_, ?_⟩
  · intro hact
    simp [end_game, hact]
  · intro hact hst
    simp [end_game, hact, hst]
  · intro hact hst
    exact ⟨by simp [end_game, hact, hst], by simp [reset_game], by simp [reset_game],
      by simp [reset_game]⟩

/-- Witness for C6: on the concrete active state, a non-starter caller is
rejected with `NotGameStarter` and the state is returned unchanged, while
the starter resets the game. -/
theorem c6_end_game_spec_witness :
    end_game sActiveW callerW2 = (some HotPotatoError.NotGameStarter, sActiveW) ∧
    end_game sActiveW callerW = (none, reset_game sActiveW) := by
  constructor
  · exact (c6_end_game_spec sActiveW callerW2).2.1 rfl (by decide)
  · exact ((c6_end_game_spec sActiveW callerW).2.2 rfl rfl).1

/-- Claim C7: `pass_potato` reports the first violated precondition in
order: `GameNotActive` whenever the game is inactive (whatever the caller
or the block number), `NotCurrentHolder` whenever the game is active but
the caller is not the holder (even past the deadline), and
`DeadlinePassed` only when the game is active and the caller is the
holder. -/
theorem c7_pass_error_order (s : Hotpotato) (caller : List Nat) (now : Nat)
    (toAcct : AccountId) :
    (s.active = false →
      (pass_potato s caller now toAcct).1 = some HotPotatoError.GameNotActive) ∧
    (s.active = true → s.current_holder ≠ some (caller_to_account_id caller) →
      (pass_potato s caller now toAcct).1 = some HotPotatoError.NotCurrentHolder) ∧
    ((pass_potato s caller now toAcct).1 = some HotPotatoError.DeadlinePassed →
      s.active = true ∧ s.current_holder = some (caller_to_account_id caller)) := by
  refine ⟨?_, ?_, ?_⟩
  · intro hact
    simp [pass_potato, hact]
  · intro hact hhold
    simp [pass_potato, hact, hhold]
  · intro hdp
    by_cases hact : s.active
    · by_cases hhold : s.current_holder = some (caller_to_account_id caller)
      · exact ⟨hact, hhold⟩
      · simp [pass_potato, hact, hhold] at hdp
    · simp [pass_potato, hact] at hdp

/-- Witness for C7: a non-holder caller at block 100 (long past the
deadline) is still rejected with `NotCurrentHolder`, not `DeadlinePassed`. -/
theorem c7_pass_error_order_witness :
    (pass_potato sActiveW callerW2 100 toW).1 = some HotPotatoError.NotCurrentHolder :=
  (c7_pass_error_order sActiveW callerW2 100 toW).2.1 rfl (by decide)

/-- Counterexample to Claim C8 as stated: at the reachable active state
`sOverW` the `u32` sum wraps to `5`, so at block `2 ^ 32 - 4` the query
returns `0` where `max 0 (last_passed_block + deadline_blocks - now)`
over the integers is `9`. -/
theorem c8_counterexample :
    sOverW.active = true ∧
    get_remaining_blocks sOverW (2 ^ 32 - 4) = 0 ∧
    (get_remaining_blocks sOverW (2 ^ 32 - 4) : ℤ) ≠
      max 0 ((sOverW.last_passed_block : ℤ) + (sOverW.deadline_blocks : ℤ) -
        ((2 ^ 32 - 4 : Nat) : ℤ)) := by
  refine ⟨by decide, by decide, by decide⟩

/-- Claim C8 (amended: the `max 0 (last + window - now)` description holds
for every combination whose `u32` sum `last_passed_block + deadline_blocks`
does not overflow): `get_remaining_blocks` is a pure query returning `0`
on an inactive state and otherwise
`max 0 (last_passed_block + deadline_blocks - now)` via saturating
subtraction; its value is never negative. -/
theorem c8_get_remaining_blocks_spec (s : Hotpotato) (now : Nat)
    (hnov : s.last_passed_block + s.deadline_blocks < 2 ^ 32) :
    (s.active = false → get_remaining_blocks s now = 0) ∧
    (s.active = true →
      (get_remaining_blocks s now : ℤ) =
        max 0 ((s.last_passed_block : ℤ) + (s.deadline_blocks : ℤ) - (now : ℤ))) ∧
    (0 : ℤ) ≤ (get_remaining_blocks s now : ℤ) := by
  have hmod : u32 (s.last_passed_block + s.deadline_blocks) =
      s.last_passed_block + s.deadline_blocks := Nat.mod_eq_of_lt hnov
  refine ⟨?_, ?_, Int.natCast_nonneg _⟩
  · intro hact
    simp [get_remaining_blocks, hact]
  · intro hact
    simp only [get_remaining_blocks, hact, Bool.not_true, Bool.false_eq_true,
      if_false, hmod]
    omega

/-- Witness for C8: a fresh (inactive) state reports `0` remaining blocks,
and the concrete active state (window 10, last pass at 0) reports the
saturating difference at block 5. -/
theorem c8_get_remaining_blocks_spec_witness :
    get_remaining_blocks (Hotpotato.new 10) 15 = 0 ∧
    (get_remaining_blocks sActiveW 5 : ℤ) =
      max 0 ((sActiveW.last_passed_block : ℤ) + (sActiveW.deadline_blocks : ℤ) - (5 : ℤ)) := by
  constructor
  · exact (c8_get_remaining_blocks_spec (Hotpotato.new 10) 15 (by decide)).1 rfl
  · exact (c8_get_remaining_blocks_spec sActiveW 5 (by decide)).2.1 rfl

lemma caller_to_account_id_high (caller : List Nat) (hlen : caller.length = 20)
    (i : Nat) (hi1 : 20 ≤ i) (hi2 : i < 32) :
    (caller_to_account_id caller).get? i = some 0 := by
  have hrep : ∀ j, j < 12 → (List.replicate 12 (0 : Nat))[j]? = some 0 := by
    intro j hj
    interval_cases j <;> rfl
  unfold caller_to_account_id
  rw [List.get?_eq_getElem?, List.getElem?_append_right (by omega), hlen]
  exact hrep (i - 20) (by omega)

/-- A bad 32-byte account id: every byte is 7, in particular byte 20. -/
def badAcctW : AccountId := List.replicate 32 7

/-- A concrete active storage value whose holder and starter both carry a
nonzero byte in positions 20..31. -/
def sBadW : Hotpotato :=
  { current_holder := some badAcctW
    last_passed_block := 0
    deadline_blocks := 10
    active := true
    game_starter := some badAcctW }

/-- Claim C9: the authorization checks compare the stored 32-byte identity
against the caller's 20-byte address zero-padded to 32 bytes, so whenever
an active state's stored holder has a nonzero byte at some position in
20..31, `pass_potato` answers `NotCurrentHolder` for every possible
caller, and likewise `end_game` answers `NotGameStarter` for every caller
when the stored starter has such a byte. -/
theorem c9_padded_caller_auth (s : Hotpotato) (caller : List Nat) (now : Nat)
    (toAcct : AccountId) (i : Nat) (b : Nat)
    (hlen : caller.length = 20) (hi1 : 20 ≤ i) (hi2 : i < 32) (hb : b ≠ 0)
    (hact : s.active = true) :
    (∀ hH, s.current_holder = some hH → hH.get? i = some b →
      (pass_potato s caller now toAcct).1 = some HotPotatoError.NotCurrentHolder) ∧
    (∀ g, s.game_starter = some g → g.get? i = some b →
      (end_game s caller).1 = some HotPotatoError.NotGameStarter) := by
  have hzero := caller_to_account_id_high caller hlen i hi1 hi2
  constructor
  · intro hH hcur hgb
    have hne : s.current_holder ≠ some (caller_to_account_id caller) := by
      rw [hcur]
      intro he
      have heq : hH = caller_to_account_id caller := Option.some.inj he
      rw [heq, hzero] at hgb
      exact hb (Option.some.inj hgb).symm
    simp [pass_potato, hact, hne]
  · intro g hst hgb
    have hne : s.game_starter ≠ some (caller_to_account_id caller) := by
      rw [hst]
      intro he
      have heq : g = caller_to_account_id caller := Option.some.inj he
      rw [heq, hzero] at hgb
      exact hb (Option.some.inj hgb).symm
    simp [end_game, hact, hne]

/-- Witness for C9: with holder and starter all-7s (byte 20 is 7 ≠ 0), the
padded caller `callerW` is rejected by both `pass_potato` and `end_game`. -/
theorem c9_padded_caller_auth_witness :
    (pass_potato sBadW callerW 0 toW).1 = some HotPotatoError.NotCurrentHolder ∧
    (end_game sBadW callerW).1 = some HotPotatoError.NotGameStarter := by
  constructor
  · exact (c9_padded_caller_auth sBadW callerW 0 toW 20 7 (by decide) (by decide)
      (by decide) (by decide) rfl).1 badAcctW rfl (by decide)
  · exact (c9_padded_caller_auth sBadW callerW 0 toW 20 7 (by decide) (by decide)
      (by decide) (by decide) rfl).2 badAcctW rfl (by decide)

/-- Claim C10: on every reachable state, an active game has a holder, so
the `current_holder.unwrap()` in the expired branch of `check_deadline`
never traps: `check_deadline` always returns normally. -/
theorem c10_check_deadline_no_trap (s : Hotpotato) (now : Nat) (h : Reachable s) :
    (s.active = true → s.current_holder.isSome = true) ∧
    (check_deadline s now).isOk = true := by
  obtain ⟨h1, h2⟩ := reachable_inv s h
  have hsome : s.active = true → s.current_holder.isSome = true := by
    intro hact
    rcases hcur : s.current_holder with _ | hh
    · have hfalse := h1.mpr hcur
      rw [hact] at hfalse
      cases hfalse
    · rfl
  refine ⟨hsome, ?_⟩
  by_cases hact : s.active
  · by_cases hexp : u32 (s.last_passed_block + s.deadline_blocks) < now
    · rcases hcur : s.current_holder with _ | hh
      · have hfalse := h1.mpr hcur
        rw [hact] at hfalse
        cases hfalse
      · simp [check_deadline, CheckOutcome.isOk, hact, hexp, hcur]
    · simp [check_deadline, CheckOutcome.isOk, hact, hexp]
  · simp [check_deadline, CheckOutcome.isOk, hact]

/-- Witness for C10: on the concrete reachable active state, checking at
block 11 (past the deadline) returns normally — no trap. -/
theorem c10_check_deadline_no_trap_witness :
    (check_deadline sReachW 11).isOk = true :=
  (c10_check_deadline_no_trap sReachW 11 ⟨10, [Op.start callerW 0 toW], rfl⟩).2
